import Mathlib

/-!
# Shallow embedding of the confidential-compute ledger service

Embeds `src/apps/ledger/service/src/ledger.rs` (the `LedgerService` and its
four operations) together with the per-key `BudgetTracker` contract.  The
budget tracker's implementation file is not part of the provided sources, so
its three operations are modelled from the spec (§4.3); every definition that
is modelled rather than translated says so in its doc comment.

Conventions:
* Rust `core::time::Duration` is modelled as a single `Nat` of total
  nanoseconds (`secs * 10^9 + nanos`); ordering and addition agree with the
  Rust lexicographic order on `(secs, nanos)`.
* Byte strings are `List Nat`.
* The external collaborators (SHA-256, attestation verification, protobuf
  decoding, the re-wrap primitive) are fields of an `Env` record: the ledger
  code only ever calls them through their contracts.
* The RNG draws of `create_key`'s key-id loop are an explicit tape
  (`List Nat`); an exhausted tape models the (never-terminating) case where
  every draw collides, so `create_key` returns an `Option`.
-/

deriving instance DecidableEq for Except

namespace Ledger

/-- Byte strings (`Vec<u8>` in the source). -/
abbrev Bytes := List Nat

/-- Nanoseconds per second, the carry unit of `Duration::new`. -/
def nanosPerSec : Nat := 1000000000

/-- Largest value of the signed 64-bit wire type (`i64::MAX`). -/
def i64Max : Nat := 9223372036854775807

/-- A Rust `Duration` as total nanoseconds since the Unix epoch. -/
abbrev Dur := Nat

/-- `Duration::as_secs`. -/
def durAsSecs (d : Dur) : Nat := d / nanosPerSec

/-- `Duration::subsec_nanos`. -/
def durSubsecNanos (d : Dur) : Nat := d % nanosPerSec

/-- `prost_types::Timestamp` (`seconds: i64`, `nanos: i32`). -/
structure Timestamp where
  seconds : Int
  nanos : Int
deriving DecidableEq, Repr

/-- `prost_types::Duration` (`seconds: i64`, `nanos: i32`). -/
structure ProstDuration where
  seconds : Int
  nanos : Int
deriving DecidableEq, Repr

/-- `micro_rpc::StatusCode` (the codes the ledger uses). -/
inductive StatusCode where
  | ok
  | invalidArgument
  | notFound
  | failedPrecondition
  | resourceExhausted
  | internal
deriving DecidableEq, Repr

/-- `micro_rpc::Status`: a code plus a human-readable message. -/
structure Status where
  code : StatusCode
  message : String
deriving DecidableEq, Repr

/-- The decoded `BlobHeader` wire message. -/
structure BlobHeader where
  blob_id : Bytes
  public_key_id : Nat
  access_policy_sha256 : Bytes
  access_policy_node_id : Nat
deriving DecidableEq, Repr

/-- `ApplicationMatcher` (currently: an optional `tag`). -/
structure ApplicationMatcher where
  tag : Option String
deriving DecidableEq, Repr

/-- `AccessBudget.kind`: a finite access count, or unlimited when absent. -/
inductive AccessBudgetKind where
  | times (n : Nat)
deriving DecidableEq, Repr

/-- `AccessBudget`. -/
structure AccessBudget where
  kind : Option AccessBudgetKind
deriving DecidableEq, Repr

/-- One `Transform` of a `DataAccessPolicy`. -/
structure Transform where
  application : Option ApplicationMatcher
  access_budget : Option AccessBudget
deriving DecidableEq, Repr

/-- The decoded `DataAccessPolicy` wire message. -/
structure DataAccessPolicy where
  transforms : List Transform
deriving DecidableEq, Repr

/-- The `Application` descriptor produced by attestation verification. -/
structure Application where
  tag : String
deriving DecidableEq, Repr

/-- `CreateKeyRequest`. -/
structure CreateKeyRequest where
  now : Option Timestamp
  ttl : Option ProstDuration
deriving DecidableEq, Repr

/-- `DeleteKeyRequest`. -/
structure DeleteKeyRequest where
  public_key_id : Nat
deriving DecidableEq, Repr

/-- `AuthorizeAccessRequest`. -/
structure AuthorizeAccessRequest where
  now : Option Timestamp
  access_policy : Bytes
  blob_header : Bytes
  encapsulated_key : Bytes
  encrypted_symmetric_key : Bytes
  recipient_public_key : Bytes
  recipient_attestation : Bytes
  recipient_tag : String
  recipient_nonce : Bytes
deriving DecidableEq, Repr

/-- `RevokeAccessRequest`. -/
structure RevokeAccessRequest where
  public_key_id : Nat
  blob_id : Bytes
deriving DecidableEq, Repr

/-- `PublicKeyDetails` (the structured form; wire encoding is external). -/
structure PublicKeyDetails where
  public_key_id : Nat
  issued_seconds : Int
  issued_nanos : Int
  expiration_seconds : Int
  expiration_nanos : Int
deriving DecidableEq, Repr

/-- `CreateKeyResponse` (the `attestation` field is reserved and empty). -/
structure CreateKeyResponse where
  public_key : Bytes
  public_key_details : PublicKeyDetails
deriving DecidableEq, Repr

/-- `AuthorizeAccessResponse`. -/
structure AuthorizeAccessResponse where
  encapsulated_key : Bytes
  encrypted_symmetric_key : Bytes
  reencryption_public_key : Bytes
deriving DecidableEq, Repr

/-- Modelled from the spec: the per-key `BudgetTracker` state (§3), whose
implementation file `budget.rs` is not among the provided sources.  For each
`(blob_id, policy_hash, transform_index)` triple it records the number of
consumptions, and it keeps the set of revoked `blob_id`s. -/
structure BudgetTracker where
  consumed : List ((Bytes × Bytes × Nat) × Nat)
  revoked : List Bytes
deriving DecidableEq, Repr

namespace BudgetTracker

/-- `BudgetTracker::new()`: empty bookkeeping. -/
def empty : BudgetTracker := ⟨[], []⟩

/-- Consumptions recorded for `(blob_id, policy_hash, index)`. -/
def countConsumed (bt : BudgetTracker) (blob policyHash : Bytes) (idx : Nat) : Nat :=
  match bt.consumed.lookup (blob, policyHash, idx) with
  | some n => n
  | none => 0

/-- Record one more consumption for `(blob_id, policy_hash, index)`. -/
def bumpConsumed (bt : BudgetTracker) (blob policyHash : Bytes) (idx : Nat) : BudgetTracker :=
  { bt with
    consumed := ((blob, policyHash, idx), bt.countConsumed blob policyHash idx + 1)
      :: bt.consumed.filter (fun e => e.1 ≠ (blob, policyHash, idx)) }

/-- Modelled from the spec (§4.3): a transform matches an application iff it
has no matcher, its matcher has no tag, or the tags are equal. -/
def matchesApp (app : Application) (t : Transform) : Bool :=
  match t.application with
  | none => true
  | some m =>
    match m.tag with
    | none => true
    | some tg => app.tag == tg

/-- Modelled from the spec (§4.3): residual budget of transform `t` is
positive given `used` recorded consumptions (absent budget = unlimited). -/
def residualPos (t : Transform) (used : Nat) : Bool :=
  match t.access_budget with
  | none => true
  | some ab =>
    match ab.kind with
    | none => true
    | some (.times n) => used < n

/-- Modelled from the spec (§4.3): walk the transforms in order; return the
first index that matches the application and has positive residual budget;
`anyMatched` remembers whether some transform matched but was exhausted. -/
def findLoop (bt : BudgetTracker) (blob policyHash : Bytes) (app : Application) :
    List Transform → Nat → Bool → Except Status Nat
  | [], _, anyMatched =>
    if anyMatched then .error ⟨.resourceExhausted, ""⟩
    else .error ⟨.failedPrecondition, ""⟩
  | t :: rest, i, anyMatched =>
    if matchesApp app t then
      if residualPos t (bt.countConsumed blob policyHash i) then .ok i
      else findLoop bt blob policyHash app rest (i + 1) true
    else findLoop bt blob policyHash app rest (i + 1) anyMatched

/-- Modelled from the spec (§4.3): `find_matching_transform`.  A revoked blob
short-circuits to `ResourceExhausted`; `node_id` is reserved and not
consulted; otherwise the first matching transform with positive residual
budget wins, `FailedPrecondition` if none matched at all, `ResourceExhausted`
if all matching transforms are exhausted.  Selection does not mutate state. -/
def find_matching_transform (bt : BudgetTracker) (blob : Bytes) (nodeId : Nat)
    (policy : DataAccessPolicy) (policyHash : Bytes) (app : Application) :
    Except Status Nat :=
  if blob ∈ bt.revoked then .error ⟨.resourceExhausted, ""⟩
  else findLoop bt blob policyHash app policy.transforms 0 false

/-- Modelled from the spec (§4.3): `update_budget` records one consumption
against `(blob_id, policy_hash, index)`; it is an internal error if the
addressed transform is absent or already exhausted. -/
def update_budget (bt : BudgetTracker) (blob : Bytes) (idx : Nat)
    (policy : DataAccessPolicy) (policyHash : Bytes) :
    Except Status BudgetTracker :=
  match policy.transforms[idx]? with
  | none => .error ⟨.internal, "no such transform"⟩
  | some t =>
    if residualPos t (bt.countConsumed blob policyHash idx) then
      .ok (bt.bumpConsumed blob policyHash idx)
    else .error ⟨.internal, "no budget remaining"⟩

/-- Modelled from the spec (§4.3): `consume_budget` adds the blob to the
revoked set; adding an already-revoked blob is a no-op (idempotence). -/
def consume_budget (bt : BudgetTracker) (blob : Bytes) : BudgetTracker :=
  if blob ∈ bt.revoked then bt else { bt with revoked := blob :: bt.revoked }

end BudgetTracker

/-- `PerKeyLedger`: one entry per live key id. -/
structure PerKeyLedger where
  private_key : Nat
  public_key : Bytes
  expiration : Dur
  budget_tracker : BudgetTracker
deriving DecidableEq, Repr

/-- The map `key_id → PerKeyLedger` (`BTreeMap<u32, PerKeyLedger>`), as an
association list with unique keys. -/
abbrev KeyMap := List (Nat × PerKeyLedger)

/-- `BTreeMap::get`. -/
def lookupKey (m : KeyMap) (k : Nat) : Option PerKeyLedger :=
  match m with
  | [] => none
  | e :: rest => if e.1 = k then some e.2 else lookupKey rest k

/-- `BTreeMap::remove` (unique keys: removes the entry with key `k`). -/
def removeKey (m : KeyMap) (k : Nat) : KeyMap :=
  m.filter (fun e => e.1 ≠ k)

/-- Replace the value stored at key `k` (used with `BTreeMap::get_mut`). -/
def setKey (m : KeyMap) (k : Nat) (v : PerKeyLedger) : KeyMap :=
  m.map (fun e => if e.1 = k then (k, v) else e)

/-- `LedgerService`: the process-wide state. -/
structure LedgerService where
  current_time : Dur
  per_key_ledgers : KeyMap
deriving DecidableEq, Repr

/-- `LedgerService::new()` / `default()`. -/
def LedgerService.init : LedgerService := ⟨0, []⟩

/-- The external collaborators, per their contracts in the spec (§6.2):
SHA-256, attestation verification, the two protobuf decoders, and the
re-wrap primitive `rewrap_symmetric_key(encrypted_symmetric_key,
encapsulated_key, private_key, unwrap_aad, recipient_public_key,
wrap_aad)`. -/
structure Env where
  sha256 : Bytes → Bytes
  verifyAttestation : Bytes → Bytes → String → Except String Application
  decodeBlobHeader : Bytes → Except String BlobHeader
  decodeAccessPolicy : Bytes → Except String DataAccessPolicy
  rewrap : Bytes → Bytes → Nat → Bytes → Bytes → Bytes → Except String (Bytes × Bytes)

namespace LedgerService

/-- `LedgerService::parse_timestamp`: absent means `Duration::ZERO`;
`try_into` fails exactly on negative `seconds` or `nanos`; `Duration::new`
carries excess nanoseconds into seconds, which total-nanosecond arithmetic
does automatically. -/
def parse_timestamp (timestamp : Option Timestamp) : Except String Dur :=
  match timestamp with
  | none => .ok 0
  | some ts =>
    if ts.seconds < 0 ∨ ts.nanos < 0 then .error "TryFromIntError(())"
    else .ok (ts.seconds.toNat * nanosPerSec + ts.nanos.toNat)

/-- `LedgerService::parse_duration`: absent means `Duration::ZERO`; the
prost conversion fails on negative components (for normalized proto
durations, which is the range the service is ever driven with). -/
def parse_duration (duration : Option ProstDuration) : Except String Dur :=
  match duration with
  | none => .ok 0
  | some d =>
    if d.seconds < 0 ∨ d.nanos < 0 then .error "DurationError"
    else .ok (d.seconds.toNat * nanosPerSec + d.nanos.toNat)

/-- `LedgerService::update_current_time`: parse `now`, require monotonicity,
advance the clock and retain exactly the keys with `expiration > now`.  On
error the state is untouched. -/
def update_current_time (now : Option Timestamp) (s : LedgerService) :
    Except String LedgerService :=
  match parse_timestamp now with
  | .error e => .error e
  | .ok n =>
    if n < s.current_time then .error "time must be monotonic"
    else .ok { current_time := n
               per_key_ledgers := s.per_key_ledgers.filter (fun e => n < e.2.expiration) }

/-- The key-id retry loop of `create_key`: pop RNG draws until one is absent
from the map; an exhausted tape (`none`) stands for the loop never
terminating, which a genuine random tape avoids with probability 1. -/
def drawKeyId (draws : List Nat) (m : KeyMap) : Option Nat :=
  match draws with
  | [] => none
  | d :: rest => if (lookupKey m d).isSome then drawKeyId rest m else some d

/-- `Ledger::create_key` for `LedgerService`.  `draws` is the RNG tape for
the key-id loop and `kp` the keypair produced by `cfc_crypto::gen_keypair`.
Note the source inserts the new `PerKeyLedger` *before* building the
response, so the expiration-overflow failure leaves the key in the map.
(The `unwrap`ed conversions of the `issued` field cannot panic for wire-range
timestamps and are modelled as total.) -/
def create_key (draws : List Nat) (kp : Nat × Bytes) (s : LedgerService)
    (request : CreateKeyRequest) :
    Option (Except Status CreateKeyResponse × LedgerService) :=
  match update_current_time request.now s with
  | .error e => some (.error ⟨.invalidArgument, "`now` is invalid: " ++ e⟩, s)
  | .ok s1 =>
    match parse_duration request.ttl with
    | .error e => some (.error ⟨.invalidArgument, "`ttl` is invalid: " ++ e⟩, s1)
    | .ok ttl =>
      let expiration := s1.current_time + ttl
      match drawKeyId draws s1.per_key_ledgers with
      | none => none
      | some key_id =>
        let s2 : LedgerService :=
          { s1 with per_key_ledgers :=
              (key_id, ⟨kp.1, kp.2, expiration, BudgetTracker.empty⟩)
                :: s1.per_key_ledgers }
        if durAsSecs expiration ≤ i64Max then
          some (.ok { public_key := kp.2
                      public_key_details :=
                        { public_key_id := key_id
                          issued_seconds := Int.ofNat (durAsSecs s1.current_time)
                          issued_nanos := Int.ofNat (durSubsecNanos s1.current_time)
                          expiration_seconds := Int.ofNat (durAsSecs expiration)
                          expiration_nanos := Int.ofNat (durSubsecNanos expiration) } },
                s2)
        else
          some (.error ⟨.invalidArgument, "`now` + `ttl` overflowed"⟩, s2)

/-- `Ledger::delete_key` for `LedgerService`. -/
def delete_key (s : LedgerService) (request : DeleteKeyRequest) :
    Except Status Unit × LedgerService :=
  match lookupKey s.per_key_ledgers request.public_key_id with
  | some _ => (.ok (), { s with
      per_key_ledgers := removeKey s.per_key_ledgers request.public_key_id })
  | none => (.error ⟨.notFound, "public key not found"⟩, s)

/-- `Ledger::authorize_access` for `LedgerService`: the ten ordered steps of
the source, first failure wins; the state returned alongside an error is the
state after the clock advance of step 1 (all later steps are read-only until
the budget commit). -/
def authorize_access (env : Env) (s : LedgerService)
    (request : AuthorizeAccessRequest) :
    Except Status AuthorizeAccessResponse × LedgerService :=
  match update_current_time request.now s with
  | .error e => (.error ⟨.invalidArgument, "`now` is invalid: " ++ e⟩, s)
  | .ok s1 =>
    match env.verifyAttestation request.recipient_public_key
        request.recipient_attestation request.recipient_tag with
    | .error e => (.error ⟨.invalidArgument, "attestation validation failed: " ++ e⟩, s1)
    | .ok recipient_app =>
      match env.decodeBlobHeader request.blob_header with
      | .error e => (.error ⟨.invalidArgument, "failed to parse blob header: " ++ e⟩, s1)
      | .ok header =>
        if env.sha256 request.access_policy ≠ header.access_policy_sha256 then
          (.error ⟨.invalidArgument, "access policy does not match blob header"⟩, s1)
        else
          match env.decodeAccessPolicy request.access_policy with
          | .error e =>
            (.error ⟨.invalidArgument, "failed to parse access policy: " ++ e⟩, s1)
          | .ok access_policy =>
            match lookupKey s1.per_key_ledgers header.public_key_id with
            | none => (.error ⟨.notFound, "public key not found"⟩, s1)
            | some per_key_ledger =>
              match per_key_ledger.budget_tracker.find_matching_transform
                  header.blob_id header.access_policy_node_id access_policy
                  header.access_policy_sha256 recipient_app with
              | .error st => (.error st, s1)
              | .ok transform_index =>
                let wrap_associated_data :=
                  per_key_ledger.public_key ++ request.recipient_nonce
                match env.rewrap request.encrypted_symmetric_key
                    request.encapsulated_key per_key_ledger.private_key
                    request.blob_header request.recipient_public_key
                    wrap_associated_data with
                | .error e =>
                  (.error ⟨.invalidArgument, "failed to re-wrap symmetric key: " ++ e⟩, s1)
                | .ok (encapsulated_key, encrypted_symmetric_key) =>
                  match per_key_ledger.budget_tracker.update_budget header.blob_id
                      transform_index access_policy header.access_policy_sha256 with
                  | .error st => (.error st, s1)
                  | .ok bt2 =>
                    (.ok { encapsulated_key := encapsulated_key
                           encrypted_symmetric_key := encrypted_symmetric_key
                           reencryption_public_key := per_key_ledger.public_key },
                     { s1 with per_key_ledgers :=
                         (setKey s1.per_key_ledgers header.public_key_id
                           { per_key_ledger with budget_tracker := bt2 }) })

/-- `Ledger::revoke_access` for `LedgerService`. -/
def revoke_access (s : LedgerService) (request : RevokeAccessRequest) :
    Except Status Unit × LedgerService :=
  match lookupKey s.per_key_ledgers request.public_key_id with
  | none => (.error ⟨.notFound, "public key not found"⟩, s)
  | some per_key_ledger =>
    (.ok (), { s with per_key_ledgers :=
                 (setKey s.per_key_ledgers request.public_key_id
                   { per_key_ledger with budget_tracker :=
                       per_key_ledger.budget_tracker.consume_budget request.blob_id }) })

end LedgerService

/-- One inbound operation, with the oracles a `create_key` call consumes. -/
inductive Op where
  | createKey (draws : List Nat) (kp : Nat × Bytes) (request : CreateKeyRequest)
  | deleteKey (request : DeleteKeyRequest)
  | authorizeAccess (request : AuthorizeAccessRequest)
  | revokeAccess (request : RevokeAccessRequest)

/-- Run one operation, keeping only the state (`none` only when a
`create_key` key-id tape is exhausted). -/
def stepOp (env : Env) (op : Op) (s : LedgerService) : Option LedgerService :=
  match op with
  | .createKey draws kp req => (LedgerService.create_key draws kp s req).map (·.2)
  | .deleteKey req => some (LedgerService.delete_key s req).2
  | .authorizeAccess req => some (LedgerService.authorize_access env s req).2
  | .revokeAccess req => some (LedgerService.revoke_access s req).2

/-- Run a sequence of operations. -/
def runOps (env : Env) (ops : List Op) (s : LedgerService) : Option LedgerService :=
  match ops with
  | [] => some s
  | op :: rest =>
    match stepOp env op s with
    | none => none
    | some s1 => runOps env rest s1

/-- `sub` occurs contiguously in `s` (Rust's `str::contains`, the relation
the source's tests use on error messages). -/
def strContains (s sub : String) : Prop := sub.data <:+: s.data

/-- Invariant I1 exactly as the spec states it: every key in the map expires
strictly after the current time. -/
def InvariantStrict (s : LedgerService) : Prop :=
  ∀ e ∈ s.per_key_ledgers, s.current_time < e.2.expiration

/-- The invariant the code actually maintains between operations: no key in
the map expires before the current time. -/
def InvariantLe (s : LedgerService) : Prop :=
  ∀ e ∈ s.per_key_ledgers, s.current_time ≤ e.2.expiration

/-- The operation cannot mint key id `k`: a `CreateKey` whose RNG tape
avoids `k` never inserts `k`, and no other operation inserts keys at all. -/
def avoidsKey (k : Nat) : Op → Prop
  | .createKey draws _ _ => k ∉ draws
  | .deleteKey _ => True
  | .authorizeAccess _ => True
  | .revokeAccess _ => True

/-- A concrete collaborator assembly for witnesses: attestation accepts and
reports the tag, headers decode to key id 7 with the raw bytes as blob id,
the policy decodes to a single unconstrained transform, hashing is the
constant `[0]`, and re-wrap echoes its ciphertext inputs. -/
def sampleEnv : Env where
  sha256 := fun _ => [0]
  verifyAttestation := fun _ _ t => .ok ⟨t⟩
  decodeBlobHeader := fun b => .ok ⟨b, 7, [0], 0⟩
  decodeAccessPolicy := fun _ => .ok ⟨[⟨none, none⟩]⟩
  rewrap := fun esk ek _ _ _ _ => .ok (ek, esk)

/-- `sampleEnv` with a header digest that cannot match the hash function. -/
def sampleEnvMismatch : Env :=
  { sampleEnv with decodeBlobHeader := fun b => .ok ⟨b, 7, [1], 0⟩ }

/-- `sampleEnv` with a re-wrap primitive that always fails. -/
def sampleEnvRewrapFail : Env :=
  { sampleEnv with rewrap := fun _ _ _ _ _ _ => .error "bad aad" }

/-- A per-key ledger used by witnesses. -/
def samplePkl : PerKeyLedger := ⟨1, [9], 1000 * nanosPerSec, BudgetTracker.empty⟩

/-- A one-key service state used by witnesses. -/
def sampleState : LedgerService := ⟨0, [(7, samplePkl)]⟩

/-- An authorize request used by witnesses. -/
def sampleAuthReq : AuthorizeAccessRequest :=
  ⟨none, [], [3], [4], [5], [6], [], "t", [8]⟩

end Ledger

namespace Ledger

/-! ## Helper lemmas about the key map -/

theorem lookupKey_cons (e : Nat × PerKeyLedger) (rest : KeyMap) (k : Nat) :
    lookupKey (e :: rest) k = if e.1 = k then some e.2 else lookupKey rest k := rfl

theorem lookupKey_eq_none_iff (m : KeyMap) (k : Nat) :
    lookupKey m k = none ↔ k ∉ m.map Prod.fst := by
  induction m with
  | nil => simp [lookupKey]
  | cons e rest ih =>
    simp only [lookupKey_cons, List.map_cons, List.mem_cons, not_or]
    by_cases h : e.1 = k
    · simp [h]
    · simp [h, ih, Ne.symm h]

theorem lookupKey_removeKey_self (m : KeyMap) (k : Nat) :
    lookupKey (removeKey m k) k = none := by
  induction m with
  | nil => rfl
  | cons e rest ih =>
    simp only [removeKey, List.filter_cons] at ih ⊢
    by_cases h : e.1 = k
    · simpa [h] using ih
    · simpa [h, lookupKey_cons] using ih

theorem lookupKey_removeKey_ne (m : KeyMap) (k k' : Nat) (h : k' ≠ k) :
    lookupKey (removeKey m k) k' = lookupKey m k' := by
  induction m with
  | nil => rfl
  | cons e rest ih =>
    simp only [removeKey, List.filter_cons, ne_eq, decide_not] at ih ⊢
    by_cases he : e.1 = k
    · simp [he, lookupKey_cons, Ne.symm h, ih]
    · by_cases he' : e.1 = k'
      · simp [he, lookupKey_cons, he', ih, h, Ne.symm h]
      · simp [he, lookupKey_cons, he', ih]

theorem lookupKey_setKey_self (m : KeyMap) (k : Nat) (v : PerKeyLedger) :
    lookupKey (setKey m k v) k = (lookupKey m k).map (fun _ => v) := by
  induction m with
  | nil => rfl
  | cons e rest ih =>
    simp only [setKey, List.map_cons] at ih ⊢
    by_cases h : e.1 = k
    · simp [h, lookupKey_cons]
    · simp [h, lookupKey_cons, ih]

theorem lookupKey_setKey_ne (m : KeyMap) (k : Nat) (v : PerKeyLedger) (k' : Nat)
    (h : k' ≠ k) : lookupKey (setKey m k v) k' = lookupKey m k' := by
  induction m with
  | nil => rfl
  | cons e rest ih =>
    simp only [setKey, List.map_cons] at ih ⊢
    by_cases he : e.1 = k
    · simp [he, lookupKey_cons, Ne.symm h, ih]
    · by_cases he' : e.1 = k'
      · simp [he, lookupKey_cons, he', h]
      · simp [he, lookupKey_cons, he', ih]

theorem setKey_map_fst (m : KeyMap) (k : Nat) (v : PerKeyLedger) :
    (setKey m k v).map Prod.fst = m.map Prod.fst := by
  induction m with
  | nil => rfl
  | cons e rest ih =>
    simp only [setKey, List.map_cons] at ih ⊢
    by_cases h : e.1 = k
    · simp [h, ih]
    · simp [h, ih]

theorem lookupKey_filter_of_none (m : KeyMap) (k : Nat) (p : Nat × PerKeyLedger → Bool)
    (h : lookupKey m k = none) : lookupKey (m.filter p) k = none := by
  rw [lookupKey_eq_none_iff] at h ⊢
  intro hmem
  exact h (List.map_subset Prod.fst (List.filter_sublist _).subset hmem)

theorem lookupKey_filter_eq_none (m : KeyMap) (k : Nat) (p : Nat × PerKeyLedger → Bool)
    (hnd : (m.map Prod.fst).Nodup) (pkl : PerKeyLedger)
    (hl : lookupKey m k = some pkl) (hp : p (k, pkl) = false) :
    lookupKey (m.filter p) k = none := by
  induction m with
  | nil => simp [lookupKey] at hl
  | cons e rest ih =>
    simp only [List.map_cons, List.nodup_cons] at hnd
    by_cases he : e.1 = k
    · have hme : e = (k, pkl) := by
        have h2 : some e.2 = some pkl := by simpa [lookupKey_cons, he] using hl
        cases e
        simp_all
      subst hme
      simp only [List.filter_cons, hp]
      simp only [Bool.false_eq_true, if_false]
      apply lookupKey_filter_of_none
      rw [lookupKey_eq_none_iff]
      exact hnd.1
    · have hl' : lookupKey rest k = some pkl := by simpa [lookupKey_cons, he] using hl
      simp only [List.filter_cons]
      by_cases hpe : p e = true
      · simp [hpe, lookupKey_cons, he, ih hnd.2 hl']
      · simp [hpe, ih hnd.2 hl']

theorem drawKeyId_fresh (draws : List Nat) (m : KeyMap) (d : Nat)
    (h : LedgerService.drawKeyId draws m = some d) : lookupKey m d = none := by
  induction draws with
  | nil => simp [LedgerService.drawKeyId] at h
  | cons a rest ih =>
    simp only [LedgerService.drawKeyId] at h
    by_cases ha : (lookupKey m a).isSome
    · exact ih (by simpa [ha] using h)
    · have had : a = d := by simpa [ha] using h
      subst had
      exact Option.not_isSome_iff_eq_none.mp ha

end Ledger

namespace Ledger

/-! ## Characterizations of the clock discipline -/

theorem parse_timestamp_none : LedgerService.parse_timestamp none = .ok 0 := rfl

theorem update_current_time_eq_ok (now : Option Timestamp) (s : LedgerService) (n : Dur)
    (hp : LedgerService.parse_timestamp now = .ok n) (hm : ¬ n < s.current_time) :
    LedgerService.update_current_time now s =
      .ok ⟨n, s.per_key_ledgers.filter (fun e => n < e.2.expiration)⟩ := by
  unfold LedgerService.update_current_time
  rw [hp]
  simp [hm]

theorem update_current_time_eq_error (now : Option Timestamp) (s : LedgerService) (n : Dur)
    (hp : LedgerService.parse_timestamp now = .ok n) (hm : n < s.current_time) :
    LedgerService.update_current_time now s = .error "time must be monotonic" := by
  unfold LedgerService.update_current_time
  rw [hp]
  simp [hm]

theorem update_current_time_ok_dest (now : Option Timestamp) (s s1 : LedgerService)
    (h : LedgerService.update_current_time now s = .ok s1) :
    ∃ n, LedgerService.parse_timestamp now = .ok n ∧ s.current_time ≤ n ∧
      s1 = ⟨n, s.per_key_ledgers.filter (fun e => n < e.2.expiration)⟩ := by
  unfold LedgerService.update_current_time at h
  cases hp : LedgerService.parse_timestamp now with
  | error e => rw [hp] at h; exact absurd h (by simp)
  | ok n =>
    rw [hp] at h
    by_cases hm : n < s.current_time
    · simp [hm] at h
    · refine ⟨n, rfl, not_lt.mp hm, ?_⟩
      simpa [hm] using h.symm

/-! ## The key-uniqueness invariant of the map -/

/-- Keys of `per_key_ledgers` are pairwise distinct (a `BTreeMap` guarantee). -/
def KeysNodup (s : LedgerService) : Prop := (s.per_key_ledgers.map Prod.fst).Nodup

theorem update_current_time_nodup (now : Option Timestamp) (s s1 : LedgerService)
    (h : LedgerService.update_current_time now s = .ok s1) (hnd : KeysNodup s) :
    KeysNodup s1 := by
  obtain ⟨n, _, _, rfl⟩ := update_current_time_ok_dest now s s1 h
  exact ((List.filter_sublist _).map Prod.fst).nodup hnd

/-- Where `create_key` can leave the state: untouched (bad `now`), clock
advanced (bad `ttl`), or clock advanced plus one fresh entry inserted (both
the success and the expiration-overflow error land here, since the source
inserts before building the response). -/
theorem create_key_state (draws : List Nat) (kp : Nat × Bytes) (s : LedgerService)
    (req : CreateKeyRequest) (res : Except Status CreateKeyResponse) (s' : LedgerService)
    (h : LedgerService.create_key draws kp s req = some (res, s')) :
    s' = s ∨
    (∃ s1, LedgerService.update_current_time req.now s = .ok s1 ∧
      (s' = s1 ∨
       ∃ key_id ttl,
         LedgerService.parse_duration req.ttl = .ok ttl ∧
         LedgerService.drawKeyId draws s1.per_key_ledgers = some key_id ∧
         s' = { s1 with per_key_ledgers :=
             ((key_id, ⟨kp.1, kp.2, s1.current_time + ttl, BudgetTracker.empty⟩)
               :: s1.per_key_ledgers) })) := by
  cases hu : LedgerService.update_current_time req.now s with
  | error e =>
    simp only [LedgerService.create_key, hu, Option.some.injEq, Prod.mk.injEq] at h
    exact Or.inl h.2.symm
  | ok s1 =>
    refine Or.inr ⟨s1, rfl, ?_⟩
    cases ht : LedgerService.parse_duration req.ttl with
    | error e =>
      simp only [LedgerService.create_key, hu, ht, Option.some.injEq, Prod.mk.injEq] at h
      exact Or.inl h.2.symm
    | ok ttl =>
      cases hd : LedgerService.drawKeyId draws s1.per_key_ledgers with
      | none =>
        simp only [LedgerService.create_key, hu, ht, hd] at h
        exact Option.noConfusion h
      | some key_id =>
        refine Or.inr ⟨key_id, ttl, rfl, rfl, ?_⟩
        by_cases hov : durAsSecs (s1.current_time + ttl) ≤ i64Max
        · simp only [LedgerService.create_key, hu, ht, hd, hov, if_true,
            Option.some.injEq, Prod.mk.injEq] at h
          exact h.2.symm
        · simp only [LedgerService.create_key, hu, ht, hd, hov, if_false,
            Option.some.injEq, Prod.mk.injEq] at h
          exact h.2.symm

/-- Where `delete_key` can leave the state. -/
theorem delete_key_state (s : LedgerService) (req : DeleteKeyRequest) :
    (LedgerService.delete_key s req).2 = s ∨
    (LedgerService.delete_key s req).2 =
      { s with per_key_ledgers := removeKey s.per_key_ledgers req.public_key_id } := by
  cases hl : lookupKey s.per_key_ledgers req.public_key_id with
  | none => exact Or.inl (by simp only [LedgerService.delete_key, hl])
  | some pkl => exact Or.inr (by simp only [LedgerService.delete_key, hl])

/-- Where `authorize_access` can leave the state: untouched (bad `now`), just
the clock advance of step 1 (any later failure), or the clock advance plus a
budget-tracker replacement at the key the header names (success). -/
theorem authorize_access_state (env : Env) (s : LedgerService)
    (req : AuthorizeAccessRequest) :
    ((LedgerService.authorize_access env s req).2 = s ∧
      ∃ e, LedgerService.update_current_time req.now s = .error e) ∨
    (∃ s1, LedgerService.update_current_time req.now s = .ok s1 ∧
      ((LedgerService.authorize_access env s req).2 = s1 ∨
       ∃ k pkl bt2, lookupKey s1.per_key_ledgers k = some pkl ∧
         (LedgerService.authorize_access env s req).2 =
           { s1 with per_key_ledgers :=
               (setKey s1.per_key_ledgers k { pkl with budget_tracker := bt2 }) })) := by
  cases hu : LedgerService.update_current_time req.now s with
  | error e =>
    exact Or.inl ⟨by simp only [LedgerService.authorize_access, hu], e, rfl⟩
  | ok s1 =>
    refine Or.inr ⟨s1, rfl, ?_⟩
    cases hatt : env.verifyAttestation req.recipient_public_key req.recipient_attestation
        req.recipient_tag with
    | error e => exact Or.inl (by simp only [LedgerService.authorize_access, hu, hatt])
    | ok app =>
    cases hh : env.decodeBlobHeader req.blob_header with
    | error e => exact Or.inl (by simp only [LedgerService.authorize_access, hu, hatt, hh])
    | ok header =>
    by_cases hsha : env.sha256 req.access_policy ≠ header.access_policy_sha256
    · exact Or.inl (by
        simp only [LedgerService.authorize_access, hu, hatt, hh, if_pos hsha])
    · cases hp : env.decodeAccessPolicy req.access_policy with
      | error e => exact Or.inl (by
          simp only [LedgerService.authorize_access, hu, hatt, hh, if_neg hsha, hp])
      | ok policy =>
      cases hl : lookupKey s1.per_key_ledgers header.public_key_id with
      | none => exact Or.inl (by
          simp only [LedgerService.authorize_access, hu, hatt, hh, if_neg hsha, hp, hl])
      | some pkl =>
      cases hf : pkl.budget_tracker.find_matching_transform header.blob_id
          header.access_policy_node_id policy header.access_policy_sha256 app with
      | error st => exact Or.inl (by
          simp only [LedgerService.authorize_access, hu, hatt, hh, if_neg hsha, hp, hl, hf])
      | ok idx =>
      cases hr : env.rewrap req.encrypted_symmetric_key req.encapsulated_key
          pkl.private_key req.blob_header req.recipient_public_key
          (pkl.public_key ++ req.recipient_nonce) with
      | error e => exact Or.inl (by
          simp only [LedgerService.authorize_access, hu, hatt, hh, if_neg hsha, hp, hl, hf, hr])
      | ok pair =>
      cases hb : pkl.budget_tracker.update_budget header.blob_id idx policy
          header.access_policy_sha256 with
      | error st => exact Or.inl (by
          simp only [LedgerService.authorize_access, hu, hatt, hh, if_neg hsha, hp, hl, hf, hr, hb])
      | ok bt2 =>
        refine Or.inr ⟨header.public_key_id, pkl, bt2, hl, ?_⟩
        simp only [LedgerService.authorize_access, hu, hatt, hh, if_neg hsha, hp, hl, hf, hr, hb]

/-- Where `revoke_access` can leave the state. -/
theorem revoke_access_state (s : LedgerService) (req : RevokeAccessRequest) :
    (LedgerService.revoke_access s req).2 = s ∨
    (∃ pkl, lookupKey s.per_key_ledgers req.public_key_id = some pkl ∧
      (LedgerService.revoke_access s req).2 =
        { s with per_key_ledgers :=
            (setKey s.per_key_ledgers req.public_key_id
              { pkl with budget_tracker := pkl.budget_tracker.consume_budget req.blob_id }) }) := by
  cases hl : lookupKey s.per_key_ledgers req.public_key_id with
  | none => exact Or.inl (by simp only [LedgerService.revoke_access, hl])
  | some pkl =>
    exact Or.inr ⟨pkl, rfl, by simp only [LedgerService.revoke_access, hl]⟩

/-- Every way one operation transforms the state preserves key uniqueness. -/
theorem stepOp_nodup (env : Env) (op : Op) (s s' : LedgerService)
    (h : stepOp env op s = some s') (hnd : KeysNodup s) : KeysNodup s' := by
  cases op with
  | createKey draws kp req =>
    cases hck : LedgerService.create_key draws kp s req with
    | none =>
      rw [show stepOp env (.createKey draws kp req) s
          = (LedgerService.create_key draws kp s req).map (·.2) from rfl, hck] at h
      exact Option.noConfusion h
    | some p =>
      obtain ⟨res, s''⟩ := p
      have hs : s'' = s' := by
        rw [show stepOp env (.createKey draws kp req) s
            = (LedgerService.create_key draws kp s req).map (·.2) from rfl, hck] at h
        simpa using h
      subst hs
      rcases create_key_state draws kp s req res s'' hck with
        rfl | ⟨s1, hu, hs | ⟨kid, ttl, ht, hd, hs⟩⟩
      · exact hnd
      · subst hs
        exact update_current_time_nodup req.now s s'' hu hnd
      · subst hs
        have hnd1 := update_current_time_nodup req.now s s1 hu hnd
        have hfresh : kid ∉ s1.per_key_ledgers.map Prod.fst :=
          (lookupKey_eq_none_iff _ _).mp (drawKeyId_fresh draws _ kid hd)
        exact List.nodup_cons.mpr ⟨hfresh, hnd1⟩
  | deleteKey req =>
    simp only [stepOp, Option.some.injEq] at h
    subst h
    rcases delete_key_state s req with hds | hds <;> rw [hds]
    · exact hnd
    · exact ((List.filter_sublist _).map Prod.fst).nodup hnd
  | authorizeAccess req =>
    simp only [stepOp, Option.some.injEq] at h
    subst h
    rcases authorize_access_state env s req with
      ⟨heq, _⟩ | ⟨s1, hu, heq | ⟨k, pkl, bt2, hl, heq⟩⟩ <;> rw [heq]
    · exact hnd
    · exact update_current_time_nodup req.now s s1 hu hnd
    · have hnd1 := update_current_time_nodup req.now s s1 hu hnd
      unfold KeysNodup
      rw [setKey_map_fst]
      exact hnd1
  | revokeAccess req =>
    simp only [stepOp, Option.some.injEq] at h
    subst h
    rcases revoke_access_state s req with heq | ⟨pkl, hl, heq⟩ <;> rw [heq]
    · exact hnd
    · unfold KeysNodup
      rw [setKey_map_fst]
      exact hnd

end Ledger

namespace Ledger

/-! ## More map lemmas, string-containment helpers, and step corollaries -/

theorem lookupKey_mem (m : KeyMap) (k : Nat) (v : PerKeyLedger)
    (h : lookupKey m k = some v) : (k, v) ∈ m := by
  induction m with
  | nil => simp [lookupKey] at h
  | cons e rest ih =>
    by_cases he : e.1 = k
    · have h2 : some e.2 = some v := by simpa [lookupKey_cons, he] using h
      have hev : e = (k, v) := by
        cases e
        simp_all
      rw [hev]
      exact List.mem_cons_self _ _
    · right
      exact ih (by simpa [lookupKey_cons, he] using h)

theorem mem_setKey (m : KeyMap) (k : Nat) (v : PerKeyLedger) (e : Nat × PerKeyLedger)
    (h : e ∈ setKey m k v) : e ∈ m ∨ e = (k, v) := by
  simp only [setKey, List.mem_map] at h
  obtain ⟨a, ha, hae⟩ := h
  by_cases hk : a.1 = k
  · right
    rw [← hae]
    simp [hk]
  · left
    rw [← hae]
    simpa [hk] using ha

theorem setKey_of_absent (m : KeyMap) (k : Nat) (v : PerKeyLedger)
    (h : lookupKey m k = none) : setKey m k v = m := by
  induction m with
  | nil => rfl
  | cons e rest ih =>
    simp only [lookupKey_cons] at h
    by_cases he : e.1 = k
    · simp [he] at h
    · simp only [setKey, List.map_cons, if_neg he]
      have := ih (by simpa [he] using h)
      simp only [setKey] at this
      rw [this]

theorem setKey_self_eq (m : KeyMap) (k : Nat) (v : PerKeyLedger)
    (hnd : (m.map Prod.fst).Nodup) (h : lookupKey m k = some v) : setKey m k v = m := by
  induction m with
  | nil => rfl
  | cons e rest ih =>
    simp only [List.map_cons, List.nodup_cons] at hnd
    by_cases he : e.1 = k
    · have h2 : some e.2 = some v := by simpa [lookupKey_cons, he] using h
      have habs : lookupKey rest k = none := by
        rw [lookupKey_eq_none_iff]
        rw [he] at hnd
        exact hnd.1
      have htail := setKey_of_absent rest k v habs
      simp only [setKey, List.map_cons, if_pos he] at *
      rw [htail]
      have : (k, v) = e := by
        cases e
        simp_all
      rw [this]
    · have h2 : lookupKey rest k = some v := by simpa [lookupKey_cons, he] using h
      have htail := ih hnd.2 h2
      simp only [setKey, List.map_cons, if_neg he] at *
      rw [htail]

theorem drawKeyId_mem (draws : List Nat) (m : KeyMap) (d : Nat)
    (h : LedgerService.drawKeyId draws m = some d) : d ∈ draws := by
  induction draws with
  | nil => simp [LedgerService.drawKeyId] at h
  | cons a rest ih =>
    simp only [LedgerService.drawKeyId] at h
    by_cases ha : (lookupKey m a).isSome
    · exact List.mem_cons_of_mem a (ih (by simpa [ha] using h))
    · have : a = d := by simpa [ha] using h
      exact this ▸ List.mem_cons_self a rest

theorem consume_budget_mem (bt : BudgetTracker) (blob : Bytes) :
    blob ∈ (bt.consume_budget blob).revoked := by
  unfold BudgetTracker.consume_budget
  by_cases h : blob ∈ bt.revoked
  · rw [if_pos h]
    exact h
  · simp [h]

theorem consume_budget_of_mem (bt : BudgetTracker) (blob : Bytes)
    (h : blob ∈ bt.revoked) : bt.consume_budget blob = bt := by
  unfold BudgetTracker.consume_budget
  simp [h]

theorem strContains_right (pre sub : String) : strContains (pre ++ sub) sub :=
  ⟨pre.data, [], by simp [String.data_append]⟩

theorem strContains_left (sub rest : String) : strContains (sub ++ rest) sub :=
  ⟨[], rest.data, by simp [String.data_append]⟩

/-! ## Reduction lemmas for the operations under explicit step outcomes -/

theorem create_key_now_error (draws : List Nat) (kp : Nat × Bytes) (s : LedgerService)
    (req : CreateKeyRequest) (e : String)
    (hu : LedgerService.update_current_time req.now s = .error e) :
    LedgerService.create_key draws kp s req =
      some (.error ⟨.invalidArgument, "`now` is invalid: " ++ e⟩, s) := by
  simp only [LedgerService.create_key, hu]

theorem authorize_access_now_error (env : Env) (s : LedgerService)
    (req : AuthorizeAccessRequest) (e : String)
    (hu : LedgerService.update_current_time req.now s = .error e) :
    LedgerService.authorize_access env s req =
      (.error ⟨.invalidArgument, "`now` is invalid: " ++ e⟩, s) := by
  simp only [LedgerService.authorize_access, hu]

theorem authorize_access_hash_mismatch (env : Env) (s s1 : LedgerService)
    (req : AuthorizeAccessRequest) (app : Application) (header : BlobHeader)
    (hu : LedgerService.update_current_time req.now s = .ok s1)
    (hatt : env.verifyAttestation req.recipient_public_key req.recipient_attestation
      req.recipient_tag = .ok app)
    (hh : env.decodeBlobHeader req.blob_header = .ok header)
    (hsha : env.sha256 req.access_policy ≠ header.access_policy_sha256) :
    LedgerService.authorize_access env s req =
      (.error ⟨.invalidArgument, "access policy does not match blob header"⟩, s1) := by
  simp only [LedgerService.authorize_access, hu, hatt, hh, if_pos hsha]

theorem authorize_access_lookup_none (env : Env) (s s1 : LedgerService)
    (req : AuthorizeAccessRequest) (app : Application) (header : BlobHeader)
    (policy : DataAccessPolicy)
    (hu : LedgerService.update_current_time req.now s = .ok s1)
    (hatt : env.verifyAttestation req.recipient_public_key req.recipient_attestation
      req.recipient_tag = .ok app)
    (hh : env.decodeBlobHeader req.blob_header = .ok header)
    (hsha : env.sha256 req.access_policy = header.access_policy_sha256)
    (hp : env.decodeAccessPolicy req.access_policy = .ok policy)
    (hl : lookupKey s1.per_key_ledgers header.public_key_id = none) :
    LedgerService.authorize_access env s req =
      (.error ⟨.notFound, "public key not found"⟩, s1) := by
  simp only [LedgerService.authorize_access, hu, hatt, hh, if_neg (not_not.mpr hsha), hp, hl]

theorem authorize_access_find_error (env : Env) (s s1 : LedgerService)
    (req : AuthorizeAccessRequest) (app : Application) (header : BlobHeader)
    (policy : DataAccessPolicy) (pkl : PerKeyLedger) (st : Status)
    (hu : LedgerService.update_current_time req.now s = .ok s1)
    (hatt : env.verifyAttestation req.recipient_public_key req.recipient_attestation
      req.recipient_tag = .ok app)
    (hh : env.decodeBlobHeader req.blob_header = .ok header)
    (hsha : env.sha256 req.access_policy = header.access_policy_sha256)
    (hp : env.decodeAccessPolicy req.access_policy = .ok policy)
    (hl : lookupKey s1.per_key_ledgers header.public_key_id = some pkl)
    (hf : pkl.budget_tracker.find_matching_transform header.blob_id
      header.access_policy_node_id policy header.access_policy_sha256 app = .error st) :
    LedgerService.authorize_access env s req = (.error st, s1) := by
  simp only [LedgerService.authorize_access, hu, hatt, hh, if_neg (not_not.mpr hsha), hp, hl, hf]

theorem authorize_access_rewrap_error (env : Env) (s s1 : LedgerService)
    (req : AuthorizeAccessRequest) (app : Application) (header : BlobHeader)
    (policy : DataAccessPolicy) (pkl : PerKeyLedger) (idx : Nat) (e : String)
    (hu : LedgerService.update_current_time req.now s = .ok s1)
    (hatt : env.verifyAttestation req.recipient_public_key req.recipient_attestation
      req.recipient_tag = .ok app)
    (hh : env.decodeBlobHeader req.blob_header = .ok header)
    (hsha : env.sha256 req.access_policy = header.access_policy_sha256)
    (hp : env.decodeAccessPolicy req.access_policy = .ok policy)
    (hl : lookupKey s1.per_key_ledgers header.public_key_id = some pkl)
    (hf : pkl.budget_tracker.find_matching_transform header.blob_id
      header.access_policy_node_id policy header.access_policy_sha256 app = .ok idx)
    (hr : env.rewrap req.encrypted_symmetric_key req.encapsulated_key pkl.private_key
      req.blob_header req.recipient_public_key
      (pkl.public_key ++ req.recipient_nonce) = .error e) :
    LedgerService.authorize_access env s req =
      (.error ⟨.invalidArgument, "failed to re-wrap symmetric key: " ++ e⟩, s1) := by
  simp only [LedgerService.authorize_access, hu, hatt, hh, if_neg (not_not.mpr hsha), hp, hl,
    hf, hr]

end Ledger

namespace Ledger

theorem find_matching_transform_revoked (bt : BudgetTracker) (blob : Bytes) (nodeId : Nat)
    (policy : DataAccessPolicy) (policyHash : Bytes) (app : Application)
    (h : blob ∈ bt.revoked) :
    bt.find_matching_transform blob nodeId policy policyHash app =
      .error ⟨.resourceExhausted, ""⟩ := by
  unfold BudgetTracker.find_matching_transform
  rw [if_pos h]

/-- C8: for every successful `authorize_access`, the returned
`encapsulated_key` and `encrypted_symmetric_key` are exactly the output of
the crypto adapter's re-wrap called with unwrap associated data equal to the
raw `request.blob_header` bytes and re-wrap associated data equal to
`per_key_ledger.public_key ++ request.recipient_nonce`, and the returned
`reencryption_public_key` is that per-key ledger's public key. -/
theorem authorize_access_success_dest (env : Env) (s : LedgerService)
    (req : AuthorizeAccessRequest) (resp : AuthorizeAccessResponse) (s' : LedgerService)
    (h : LedgerService.authorize_access env s req = (.ok resp, s')) :
    ∃ s1 header pkl ek esk,
      LedgerService.update_current_time req.now s = .ok s1 ∧
      env.decodeBlobHeader req.blob_header = .ok header ∧
      lookupKey s1.per_key_ledgers header.public_key_id = some pkl ∧
      env.rewrap req.encrypted_symmetric_key req.encapsulated_key pkl.private_key
        req.blob_header req.recipient_public_key
        (pkl.public_key ++ req.recipient_nonce) = .ok (ek, esk) ∧
      resp = ⟨ek, esk, pkl.public_key⟩ := by
  cases hu : LedgerService.update_current_time req.now s with
  | error e =>
    rw [authorize_access_now_error env s req e hu] at h
    simp at h
  | ok s1 =>
    refine ⟨s1, ?_⟩
    cases hatt : env.verifyAttestation req.recipient_public_key req.recipient_attestation
        req.recipient_tag with
    | error e =>
      simp only [LedgerService.authorize_access, hu, hatt] at h
      simp at h
    | ok app =>
    cases hh : env.decodeBlobHeader req.blob_header with
    | error e =>
      simp only [LedgerService.authorize_access, hu, hatt, hh] at h
      simp at h
    | ok header =>
    refine ⟨header, ?_⟩
    by_cases hsha : env.sha256 req.access_policy ≠ header.access_policy_sha256
    · simp only [LedgerService.authorize_access, hu, hatt, hh, if_pos hsha] at h
      simp at h
    · cases hp : env.decodeAccessPolicy req.access_policy with
      | error e =>
        simp only [LedgerService.authorize_access, hu, hatt, hh, if_neg hsha, hp] at h
        simp at h
      | ok policy =>
      cases hl : lookupKey s1.per_key_ledgers header.public_key_id with
      | none =>
        simp only [LedgerService.authorize_access, hu, hatt, hh, if_neg hsha, hp, hl] at h
        simp at h
      | some pkl =>
      refine ⟨pkl, ?_⟩
      cases hf : pkl.budget_tracker.find_matching_transform header.blob_id
          header.access_policy_node_id policy header.access_policy_sha256 app with
      | error st =>
        simp only [LedgerService.authorize_access, hu, hatt, hh, if_neg hsha, hp, hl, hf] at h
        simp at h
      | ok idx =>
      cases hr : env.rewrap req.encrypted_symmetric_key req.encapsulated_key
          pkl.private_key req.blob_header req.recipient_public_key
          (pkl.public_key ++ req.recipient_nonce) with
      | error e =>
        simp only [LedgerService.authorize_access, hu, hatt, hh, if_neg hsha, hp, hl,
          hf, hr] at h
        simp at h
      | ok pair =>
      obtain ⟨ek, esk⟩ := pair
      refine ⟨ek, esk, rfl, rfl, rfl, rfl, ?_⟩
      cases hb : pkl.budget_tracker.update_budget header.blob_id idx policy
          header.access_policy_sha256 with
      | error st =>
        simp only [LedgerService.authorize_access, hu, hatt, hh, if_neg hsha, hp, hl,
          hf, hr, hb] at h
        simp at h
      | ok bt2 =>
        simp only [LedgerService.authorize_access, hu, hatt, hh, if_neg hsha, hp, hl,
          hf, hr, hb, Prod.mk.injEq] at h
        obtain ⟨h1, _⟩ := h
        exact (Except.ok.inj h1).symm

/-- One step never rewinds the clock. -/
theorem stepOp_time_mono (env : Env) (op : Op) (s s' : LedgerService)
    (h : stepOp env op s = some s') : s.current_time ≤ s'.current_time := by
  cases op with
  | createKey draws kp req =>
    cases hck : LedgerService.create_key draws kp s req with
    | none =>
      rw [show stepOp env (.createKey draws kp req) s
          = (LedgerService.create_key draws kp s req).map (·.2) from rfl, hck] at h
      exact Option.noConfusion h
    | some p =>
      obtain ⟨res, s''⟩ := p
      have hs : s'' = s' := by
        rw [show stepOp env (.createKey draws kp req) s
            = (LedgerService.create_key draws kp s req).map (·.2) from rfl, hck] at h
        simpa using h
      subst hs
      rcases create_key_state draws kp s req res s'' hck with
        rfl | ⟨s1, hu, hs | ⟨kid, ttl, ht, hd, hs⟩⟩
      · exact le_refl _
      · subst hs
        obtain ⟨n, _, hle, rfl⟩ := update_current_time_ok_dest req.now s s'' hu
        exact hle
      · subst hs
        obtain ⟨n, _, hle, rfl⟩ := update_current_time_ok_dest req.now s s1 hu
        exact hle
  | deleteKey req =>
    simp only [stepOp, Option.some.injEq] at h
    subst h
    rcases delete_key_state s req with hds | hds <;> rw [hds]
  | authorizeAccess req =>
    simp only [stepOp, Option.some.injEq] at h
    subst h
    rcases authorize_access_state env s req with
      ⟨heq, _⟩ | ⟨s1, hu, heq | ⟨k, pkl, bt2, hl, heq⟩⟩ <;> rw [heq]
    · obtain ⟨n, _, hle, rfl⟩ := update_current_time_ok_dest req.now s s1 hu
      exact hle
    · obtain ⟨n, _, hle, rfl⟩ := update_current_time_ok_dest req.now s s1 hu
      exact hle
  | revokeAccess req =>
    simp only [stepOp, Option.some.injEq] at h
    subst h
    rcases revoke_access_state s req with heq | ⟨pkl, hl, heq⟩ <;> rw [heq]

/-- Clock monotonicity over whole runs. -/
theorem runOps_time_mono (env : Env) (ops : List Op) (s s' : LedgerService)
    (h : runOps env ops s = some s') : s.current_time ≤ s'.current_time := by
  induction ops generalizing s with
  | nil =>
    simp only [runOps, Option.some.injEq] at h
    rw [h]
  | cons op rest ih =>
    simp only [runOps] at h
    cases hs : stepOp env op s with
    | none => rw [hs] at h; exact Option.noConfusion h
    | some s1 =>
      rw [hs] at h
      exact le_trans (stepOp_time_mono env op s s1 hs) (ih s1 h)

/-- A step that cannot mint key id `k` keeps `k` absent from the map. -/
theorem stepOp_preserves_absent (env : Env) (op : Op) (s s' : LedgerService) (k : Nat)
    (h : stepOp env op s = some s') (havoid : avoidsKey k op)
    (habs : lookupKey s.per_key_ledgers k = none) :
    lookupKey s'.per_key_ledgers k = none := by
  cases op with
  | createKey draws kp req =>
    cases hck : LedgerService.create_key draws kp s req with
    | none =>
      rw [show stepOp env (.createKey draws kp req) s
          = (LedgerService.create_key draws kp s req).map (·.2) from rfl, hck] at h
      exact Option.noConfusion h
    | some p =>
      obtain ⟨res, s''⟩ := p
      have hs : s'' = s' := by
        rw [show stepOp env (.createKey draws kp req) s
            = (LedgerService.create_key draws kp s req).map (·.2) from rfl, hck] at h
        simpa using h
      subst hs
      rcases create_key_state draws kp s req res s'' hck with
        rfl | ⟨s1, hu, hs | ⟨kid, ttl, ht, hd, hs⟩⟩
      · exact habs
      · subst hs
        obtain ⟨n, _, _, rfl⟩ := update_current_time_ok_dest req.now s s'' hu
        exact lookupKey_filter_of_none _ _ _ habs
      · subst hs
        obtain ⟨n, _, _, rfl⟩ := update_current_time_ok_dest req.now s s1 hu
        have hkid : kid ≠ k := by
          intro hkk
          exact havoid (hkk ▸ drawKeyId_mem draws _ kid hd)
        simp only [lookupKey_cons, if_neg hkid]
        exact lookupKey_filter_of_none _ _ _ habs
  | deleteKey req =>
    simp only [stepOp, Option.some.injEq] at h
    subst h
    rcases delete_key_state s req with hds | hds <;> rw [hds]
    · exact habs
    · by_cases hk : k = req.public_key_id
      · rw [hk]
        exact lookupKey_removeKey_self _ _
      · rw [lookupKey_removeKey_ne _ _ _ hk]
        exact habs
  | authorizeAccess req =>
    simp only [stepOp, Option.some.injEq] at h
    subst h
    rcases authorize_access_state env s req with
      ⟨heq, _⟩ | ⟨s1, hu, heq | ⟨k2, pkl, bt2, hl, heq⟩⟩ <;> rw [heq]
    · exact habs
    · obtain ⟨n, _, _, rfl⟩ := update_current_time_ok_dest req.now s s1 hu
      exact lookupKey_filter_of_none _ _ _ habs
    · obtain ⟨n, _, _, hs1⟩ := update_current_time_ok_dest req.now s s1 hu
      have habs1 : lookupKey s1.per_key_ledgers k = none := by
        rw [hs1]
        exact lookupKey_filter_of_none _ _ _ habs
      have hk2 : k ≠ k2 := by
        intro hkk
        rw [← hkk] at hl
        rw [habs1] at hl
        exact Option.noConfusion hl
      rw [lookupKey_setKey_ne _ _ _ _ hk2]
      exact habs1
  | revokeAccess req =>
    simp only [stepOp, Option.some.injEq] at h
    subst h
    rcases revoke_access_state s req with heq | ⟨pkl, hl, heq⟩ <;> rw [heq]
    · exact habs
    · have hk2 : k ≠ req.public_key_id := by
        intro hkk
        rw [← hkk] at hl
        rw [habs] at hl
        exact Option.noConfusion hl
      rw [lookupKey_setKey_ne _ _ _ _ hk2]
      exact habs

/-- Absence of a key persists over any run whose operations avoid minting it. -/
theorem runOps_preserves_absent (env : Env) (ops : List Op) (s s' : LedgerService) (k : Nat)
    (h : runOps env ops s = some s') (havoid : ∀ op ∈ ops, avoidsKey k op)
    (habs : lookupKey s.per_key_ledgers k = none) :
    lookupKey s'.per_key_ledgers k = none := by
  induction ops generalizing s with
  | nil =>
    simp only [runOps, Option.some.injEq] at h
    rw [← h]
    exact habs
  | cons op rest ih =>
    simp only [runOps] at h
    cases hs : stepOp env op s with
    | none => rw [hs] at h; exact Option.noConfusion h
    | some s1 =>
      rw [hs] at h
      exact ih s1 h (fun o ho => havoid o (List.mem_cons_of_mem op ho))
        (stepOp_preserves_absent env op s s1 k hs (havoid op (List.mem_cons_self op rest)) habs)

end Ledger

namespace Ledger

/-- The clock advance leaves only strictly-unexpired keys behind. -/
theorem update_current_time_strict (now : Option Timestamp) (s s1 : LedgerService)
    (h : LedgerService.update_current_time now s = .ok s1) : InvariantStrict s1 := by
  obtain ⟨n, _, _, rfl⟩ := update_current_time_ok_dest now s s1 h
  intro e he
  have := List.of_mem_filter he
  simpa using this

/-- Each operation preserves `InvariantLe`. -/
theorem stepOp_invariantLe (env : Env) (op : Op) (s s' : LedgerService)
    (h : stepOp env op s = some s') (hinv : InvariantLe s) : InvariantLe s' := by
  cases op with
  | createKey draws kp req =>
    cases hck : LedgerService.create_key draws kp s req with
    | none =>
      rw [show stepOp env (.createKey draws kp req) s
          = (LedgerService.create_key draws kp s req).map (·.2) from rfl, hck] at h
      exact Option.noConfusion h
    | some p =>
      obtain ⟨res, s''⟩ := p
      have hs : s'' = s' := by
        rw [show stepOp env (.createKey draws kp req) s
            = (LedgerService.create_key draws kp s req).map (·.2) from rfl, hck] at h
        simpa using h
      subst hs
      rcases create_key_state draws kp s req res s'' hck with
        rfl | ⟨s1, hu, hs | ⟨kid, ttl, ht, hd, hs⟩⟩
      · exact hinv
      · subst hs
        intro e he
        exact le_of_lt (update_current_time_strict req.now s s'' hu e he)
      · subst hs
        intro e he
        rcases List.mem_cons.mp he with rfl | he'
        · exact Nat.le_add_right _ _
        · exact le_of_lt (update_current_time_strict req.now s s1 hu e he')
  | deleteKey req =>
    simp only [stepOp, Option.some.injEq] at h
    subst h
    rcases delete_key_state s req with hds | hds <;> rw [hds]
    · exact hinv
    · intro e he
      exact hinv e (List.mem_of_mem_filter he)
  | authorizeAccess req =>
    simp only [stepOp, Option.some.injEq] at h
    subst h
    rcases authorize_access_state env s req with
      ⟨heq, _⟩ | ⟨s1, hu, heq | ⟨k, pkl, bt2, hl, heq⟩⟩ <;> rw [heq]
    · exact hinv
    · intro e he
      exact le_of_lt (update_current_time_strict req.now s s1 hu e he)
    · intro e he
      rcases mem_setKey _ _ _ _ he with he' | rfl
      · exact le_of_lt (update_current_time_strict req.now s s1 hu e he')
      · exact le_of_lt
          (update_current_time_strict req.now s s1 hu (k, pkl) (lookupKey_mem _ _ _ hl))
  | revokeAccess req =>
    simp only [stepOp, Option.some.injEq] at h
    subst h
    rcases revoke_access_state s req with heq | ⟨pkl, hl, heq⟩ <;> rw [heq]
    · exact hinv
    · intro e he
      rcases mem_setKey _ _ _ _ he with he' | rfl
      · exact hinv e he'
      · exact hinv (req.public_key_id, pkl) (lookupKey_mem _ _ _ hl)

/-- `InvariantLe` holds in every state reachable from the initial one. -/
theorem runOps_invariantLe (env : Env) (ops : List Op) (s s' : LedgerService)
    (h : runOps env ops s = some s') (hinv : InvariantLe s) : InvariantLe s' := by
  induction ops generalizing s with
  | nil =>
    simp only [runOps, Option.some.injEq] at h
    rw [← h]
    exact hinv
  | cons op rest ih =>
    simp only [runOps] at h
    cases hs : stepOp env op s with
    | none => rw [hs] at h; exact Option.noConfusion h
    | some s1 =>
      rw [hs] at h
      exact ih s1 h (stepOp_invariantLe env op s s1 hs hinv)

/-! ## Claim theorems -/

/-- C3 counterexample: invariant I1 as stated (strict `expiration >
current_time` after every operation) fails on the code.  `CreateKey` with
`ttl = 0` succeeds and inserts a key whose expiration equals `current_time`:
from the initial state, `CreateKey` with absent `now` and `ttl` yields the
state `⟨0, [(5, expiration 0)]⟩`, which violates the strict invariant. -/
theorem create_key_zero_ttl_violates_strict_invariant :
    (LedgerService.create_key [5] (0, []) LedgerService.init ⟨none, none⟩).map Prod.snd =
      some ⟨0, [(5, ⟨0, [], 0, BudgetTracker.empty⟩)]⟩ ∧
    ¬ InvariantStrict ⟨0, [(5, ⟨0, [], 0, BudgetTracker.empty⟩)]⟩ := by
  constructor
  · decide
  · intro h
    exact lt_irrefl 0 (h (5, ⟨0, [], 0, BudgetTracker.empty⟩) (List.mem_singleton.mpr rfl))

/-- C3 (amended): after every operation, whether it succeeds or fails, every
key in `per_key_ledgers` has expiration at least `current_time` (`≥`, not the
spec's strict `>`: a key freshly inserted by `CreateKey` with `ttl = 0` has
expiration equal to `current_time`).  The invariant holds in the initial
state, is preserved by every step, and so holds in every reachable state. -/
theorem expiration_never_lags_clock :
    InvariantLe LedgerService.init ∧
    (∀ env op s s', stepOp env op s = some s' → InvariantLe s → InvariantLe s') ∧
    (∀ env ops s', runOps env ops LedgerService.init = some s' → InvariantLe s') := by
  refine ⟨?_, stepOp_invariantLe, ?_⟩
  · intro e he
    simp [LedgerService.init] at he
  · intro env ops s' h
    exact runOps_invariantLe env ops LedgerService.init s' h
      (fun e he => by simp [LedgerService.init] at he)

/-- C3 amended witness: a run consisting of the `ttl = 0` key creation ends
in a state satisfying the `≥` invariant. -/
theorem expiration_never_lags_clock_witness :
    runOps sampleEnv [.createKey [5] (0, []) ⟨none, none⟩] LedgerService.init =
      some ⟨0, [(5, ⟨0, [], 0, BudgetTracker.empty⟩)]⟩ ∧
    InvariantLe ⟨0, [(5, ⟨0, [], 0, BudgetTracker.empty⟩)]⟩ :=
  ⟨by decide,
   expiration_never_lags_clock.2.2 sampleEnv [.createKey [5] (0, []) ⟨none, none⟩]
     ⟨0, [(5, ⟨0, [], 0, BudgetTracker.empty⟩)]⟩ (by decide)⟩

/-- C4: the claim is right and the code is wrong.  When `now` and `ttl` parse
but `now + ttl` exceeds the signed 64-bit wire range (here `2^62 s + 2^62 s`),
`create_key` does return `InvalidArgument` ("`now` + `ttl` overflowed"), but
the keypair has already been generated and inserted: the returned state
contains the freshly minted key `3`, so `per_key_ledgers` is *not* unchanged,
contradicting the spec's transactionality and its step ordering (§4.1.1 puts
the overflow check before key generation). -/
theorem create_key_overflow_still_inserts :
    LedgerService.create_key [3] (0, []) LedgerService.init
      ⟨some ⟨4611686018427387904, 0⟩, some ⟨4611686018427387904, 0⟩⟩ =
    some (.error ⟨.invalidArgument, "`now` + `ttl` overflowed"⟩,
      ⟨4611686018427387904 * nanosPerSec,
       [(3, ⟨0, [], 9223372036854775808 * nanosPerSec, BudgetTracker.empty⟩)]⟩) := by
  decide

/-- C5: a request whose parsed `now` lags `current_time` fails with
`InvalidArgument` and a message containing "time must be monotonic", leaving
the state untouched (for both `CreateKey` and `AuthorizeAccess`, the two
operations that carry `now`); consequently `current_time` is monotone
non-decreasing across every run. -/
theorem time_must_be_monotonic :
    (∀ draws kp s req n, LedgerService.parse_timestamp req.now = .ok n →
      n < s.current_time →
      LedgerService.create_key draws kp s req =
        some (.error ⟨.invalidArgument, "`now` is invalid: " ++ "time must be monotonic"⟩, s) ∧
      strContains ("`now` is invalid: " ++ "time must be monotonic") "time must be monotonic") ∧
    (∀ env s req n, LedgerService.parse_timestamp req.now = .ok n →
      n < s.current_time →
      LedgerService.authorize_access env s req =
        (.error ⟨.invalidArgument, "`now` is invalid: " ++ "time must be monotonic"⟩, s) ∧
      strContains ("`now` is invalid: " ++ "time must be monotonic") "time must be monotonic") ∧
    (∀ env ops s s', runOps env ops s = some s' → s.current_time ≤ s'.current_time) := by
  refine ⟨?_, ?_, runOps_time_mono⟩
  · intro draws kp s req n hp hm
    exact ⟨create_key_now_error draws kp s req _ (update_current_time_eq_error req.now s n hp hm),
      strContains_right _ _⟩
  · intro env s req n hp hm
    exact ⟨authorize_access_now_error env s req _ (update_current_time_eq_error req.now s n hp hm),
      strContains_right _ _⟩

/-- C5 witness: from a state with `current_time = 1000 s`, a `CreateKey` and
an `AuthorizeAccess` carrying `now = 500 s` fail as stated, and a concrete
run only moves the clock forward. -/
theorem time_must_be_monotonic_witness :
    (LedgerService.parse_timestamp (some ⟨500, 0⟩) = .ok (500 * nanosPerSec) ∧
     500 * nanosPerSec < (⟨1000 * nanosPerSec, []⟩ : LedgerService).current_time ∧
     LedgerService.create_key [5] (0, []) ⟨1000 * nanosPerSec, []⟩
         ⟨some ⟨500, 0⟩, none⟩ =
       some (.error ⟨.invalidArgument, "`now` is invalid: " ++ "time must be monotonic"⟩,
         ⟨1000 * nanosPerSec, []⟩)) ∧
    (LedgerService.authorize_access sampleEnv ⟨1000 * nanosPerSec, []⟩
        { sampleAuthReq with now := some ⟨500, 0⟩ } =
      (.error ⟨.invalidArgument, "`now` is invalid: " ++ "time must be monotonic"⟩,
        ⟨1000 * nanosPerSec, []⟩)) ∧
    (runOps sampleEnv [.createKey [5] (0, []) ⟨some ⟨2000, 0⟩, none⟩]
        ⟨1000 * nanosPerSec, []⟩).map LedgerService.current_time = some (2000 * nanosPerSec) :=
  ⟨⟨by decide, by decide,
    (time_must_be_monotonic.1 [5] (0, []) ⟨1000 * nanosPerSec, []⟩
      ⟨some ⟨500, 0⟩, none⟩ (500 * nanosPerSec) (by decide) (by decide)).1⟩,
   (time_must_be_monotonic.2.1 sampleEnv ⟨1000 * nanosPerSec, []⟩
      { sampleAuthReq with now := some ⟨500, 0⟩ } (500 * nanosPerSec)
      (by decide) (by decide)).1,
   by decide⟩

/-- C9: `DeleteKey` removes exactly the named entry and returns the empty
response when it exists, fails `NotFound` ("public key not found") when it
does not, and in both cases leaves `current_time` and every other entry
untouched (no clock advance, no TTL eviction). -/
theorem delete_key_exact (s : LedgerService) (req : DeleteKeyRequest) :
    (∀ pkl, lookupKey s.per_key_ledgers req.public_key_id = some pkl →
      LedgerService.delete_key s req =
        (.ok (), { s with per_key_ledgers := removeKey s.per_key_ledgers req.public_key_id }) ∧
      lookupKey (removeKey s.per_key_ledgers req.public_key_id) req.public_key_id = none ∧
      (∀ k, k ≠ req.public_key_id →
        lookupKey (removeKey s.per_key_ledgers req.public_key_id) k =
          lookupKey s.per_key_ledgers k)) ∧
    (lookupKey s.per_key_ledgers req.public_key_id = none →
      LedgerService.delete_key s req = (.error ⟨.notFound, "public key not found"⟩, s)) := by
  constructor
  · intro pkl hl
    refine ⟨?_, lookupKey_removeKey_self _ _, fun k hk => lookupKey_removeKey_ne _ _ _ hk⟩
    simp only [LedgerService.delete_key, hl]
  · intro hl
    simp only [LedgerService.delete_key, hl]

/-- C9 witness: deleting key 7 from the sample state removes it and keeps
key 8 intact; deleting an absent key fails `NotFound` and changes nothing. -/
theorem delete_key_exact_witness :
    (lookupKey (⟨0, [(7, samplePkl), (8, samplePkl)]⟩ : LedgerService).per_key_ledgers 7 =
      some samplePkl ∧
     LedgerService.delete_key ⟨0, [(7, samplePkl), (8, samplePkl)]⟩ ⟨7⟩ =
       (.ok (), ⟨0, [(8, samplePkl)]⟩)) ∧
    (lookupKey (⟨0, [(8, samplePkl)]⟩ : LedgerService).per_key_ledgers 7 = none ∧
     LedgerService.delete_key ⟨0, [(8, samplePkl)]⟩ ⟨7⟩ =
       (.error ⟨.notFound, "public key not found"⟩, ⟨0, [(8, samplePkl)]⟩)) :=
  ⟨⟨by decide,
    by
      have h := ((delete_key_exact ⟨0, [(7, samplePkl), (8, samplePkl)]⟩ ⟨7⟩).1
        samplePkl (by decide)).1
      rw [h]
      decide⟩,
   ⟨by decide, (delete_key_exact ⟨0, [(8, samplePkl)]⟩ ⟨7⟩).2 (by decide)⟩⟩

/-- C10: an absent `now` parses as duration zero, so once `current_time` is
positive, any `CreateKey` or `AuthorizeAccess` omitting `now` fails
`InvalidArgument` with a message containing "time must be monotonic"
(and the state is untouched). -/
theorem absent_now_rejected_after_time_advances :
    LedgerService.parse_timestamp none = .ok 0 ∧
    (∀ draws kp s req, req.now = none → 0 < s.current_time →
      LedgerService.create_key draws kp s req =
        some (.error ⟨.invalidArgument, "`now` is invalid: " ++ "time must be monotonic"⟩, s) ∧
      strContains ("`now` is invalid: " ++ "time must be monotonic") "time must be monotonic") ∧
    (∀ env s req, req.now = none → 0 < s.current_time →
      LedgerService.authorize_access env s req =
        (.error ⟨.invalidArgument, "`now` is invalid: " ++ "time must be monotonic"⟩, s) ∧
      strContains ("`now` is invalid: " ++ "time must be monotonic") "time must be monotonic") := by
  refine ⟨rfl, ?_, ?_⟩
  · intro draws kp s req hnow hpos
    have hp : LedgerService.parse_timestamp req.now = .ok 0 := by rw [hnow]; rfl
    exact ⟨create_key_now_error draws kp s req _
        (update_current_time_eq_error req.now s 0 hp hpos),
      strContains_right _ _⟩
  · intro env s req hnow hpos
    have hp : LedgerService.parse_timestamp req.now = .ok 0 := by rw [hnow]; rfl
    exact ⟨authorize_access_now_error env s req _
        (update_current_time_eq_error req.now s 0 hp hpos),
      strContains_right _ _⟩

/-- C10 witness: with the clock at `1000 s`, a `CreateKey` and an
`AuthorizeAccess` with absent `now` fail as stated. -/
theorem absent_now_rejected_after_time_advances_witness :
    ((⟨1000 * nanosPerSec, []⟩ : LedgerService).current_time > 0) ∧
    LedgerService.create_key [5] (0, []) ⟨1000 * nanosPerSec, []⟩ ⟨none, none⟩ =
      some (.error ⟨.invalidArgument, "`now` is invalid: " ++ "time must be monotonic"⟩,
        ⟨1000 * nanosPerSec, []⟩) ∧
    LedgerService.authorize_access sampleEnv ⟨1000 * nanosPerSec, []⟩ sampleAuthReq =
      (.error ⟨.invalidArgument, "`now` is invalid: " ++ "time must be monotonic"⟩,
        ⟨1000 * nanosPerSec, []⟩) :=
  ⟨by decide,
   (absent_now_rejected_after_time_advances.2.1 [5] (0, []) ⟨1000 * nanosPerSec, []⟩
     ⟨none, none⟩ rfl (by decide)).1,
   (absent_now_rejected_after_time_advances.2.2 sampleEnv ⟨1000 * nanosPerSec, []⟩
     sampleAuthReq rfl (by decide)).1⟩

end Ledger

namespace Ledger

theorem strContains_left_assoc (a b c : String) : strContains ((a ++ b) ++ c) a :=
  ⟨[], b.data ++ c.data, by simp [String.data_append]⟩

/-- C1: when the re-wrap step fails, `authorize_access` returns
`InvalidArgument` with a message containing "failed to re-wrap symmetric
key", and the returned state is exactly the state after the clock advance of
step 1; in particular every per-key ledger's budget tracker is identical to
its state at that point — no budget is debited. -/
theorem rewrap_failure_debits_no_budget (env : Env) (s s1 : LedgerService)
    (req : AuthorizeAccessRequest) (app : Application) (header : BlobHeader)
    (policy : DataAccessPolicy) (pkl : PerKeyLedger) (idx : Nat) (e : String)
    (hu : LedgerService.update_current_time req.now s = .ok s1)
    (hatt : env.verifyAttestation req.recipient_public_key req.recipient_attestation
      req.recipient_tag = .ok app)
    (hh : env.decodeBlobHeader req.blob_header = .ok header)
    (hsha : env.sha256 req.access_policy = header.access_policy_sha256)
    (hp : env.decodeAccessPolicy req.access_policy = .ok policy)
    (hl : lookupKey s1.per_key_ledgers header.public_key_id = some pkl)
    (hf : pkl.budget_tracker.find_matching_transform header.blob_id
      header.access_policy_node_id policy header.access_policy_sha256 app = .ok idx)
    (hr : env.rewrap req.encrypted_symmetric_key req.encapsulated_key pkl.private_key
      req.blob_header req.recipient_public_key
      (pkl.public_key ++ req.recipient_nonce) = .error e) :
    LedgerService.authorize_access env s req =
      (.error ⟨.invalidArgument, "failed to re-wrap symmetric key: " ++ e⟩, s1) ∧
    strContains ("failed to re-wrap symmetric key: " ++ e)
      "failed to re-wrap symmetric key" ∧
    (∀ k, (lookupKey (LedgerService.authorize_access env s req).2.per_key_ledgers k).map
        PerKeyLedger.budget_tracker =
      (lookupKey s1.per_key_ledgers k).map PerKeyLedger.budget_tracker) := by
  have h1 := authorize_access_rewrap_error env s s1 req app header policy pkl idx e
    hu hatt hh hsha hp hl hf hr
  refine ⟨h1, ?_, ?_⟩
  · have heq : ("failed to re-wrap symmetric key: " ++ e)
        = ("failed to re-wrap symmetric key" ++ ": ") ++ e := by
      rw [show ("failed to re-wrap symmetric key: " : String)
          = "failed to re-wrap symmetric key" ++ ": " from by decide]
    rw [heq]
    exact strContains_left_assoc _ _ _
  · intro k
    rw [h1]

/-- C1 witness: with a re-wrap primitive that always fails, the sample
request reaches step 8 and fails as stated with the state of step 1. -/
theorem rewrap_failure_debits_no_budget_witness :
    LedgerService.authorize_access sampleEnvRewrapFail sampleState sampleAuthReq =
      (.error ⟨.invalidArgument, "failed to re-wrap symmetric key: " ++ "bad aad"⟩,
        ⟨0, [(7, samplePkl)]⟩) ∧
    strContains ("failed to re-wrap symmetric key: " ++ "bad aad")
      "failed to re-wrap symmetric key" := by
  have h := rewrap_failure_debits_no_budget sampleEnvRewrapFail sampleState
    ⟨0, [(7, samplePkl)]⟩ sampleAuthReq ⟨"t"⟩ ⟨[3], 7, [0], 0⟩ ⟨[⟨none, none⟩]⟩
    samplePkl 0 "bad aad" (by decide) (by decide) (by decide) (by decide) (by decide)
    (by decide) (by decide) (by decide)
  exact ⟨h.1, h.2.1⟩

/-- C2: after attestation succeeded and the header decoded, a digest
mismatch between `SHA-256(request.access_policy)` and
`header.access_policy_sha256` fails with `InvalidArgument` ("access policy
does not match blob header") and the state of step 1 — and the result is the
same for *every* policy decoder and re-wrap primitive, so neither the policy
decode nor the re-wrap is performed, and no hypothesis on the key map or
tracker is needed (no key lookup or transform selection happens). -/
theorem policy_digest_mismatch_rejected (env : Env) (s s1 : LedgerService)
    (req : AuthorizeAccessRequest) (app : Application) (header : BlobHeader)
    (hu : LedgerService.update_current_time req.now s = .ok s1)
    (hatt : env.verifyAttestation req.recipient_public_key req.recipient_attestation
      req.recipient_tag = .ok app)
    (hh : env.decodeBlobHeader req.blob_header = .ok header)
    (hsha : env.sha256 req.access_policy ≠ header.access_policy_sha256) :
    (∀ dp rw2, LedgerService.authorize_access
        { env with decodeAccessPolicy := dp, rewrap := rw2 } s req =
      (.error ⟨.invalidArgument, "access policy does not match blob header"⟩, s1)) ∧
    LedgerService.authorize_access env s req =
      (.error ⟨.invalidArgument, "access policy does not match blob header"⟩, s1) := by
  constructor
  · intro dp rw2
    exact authorize_access_hash_mismatch _ s s1 req app header hu hatt hh hsha
  · exact authorize_access_hash_mismatch env s s1 req app header hu hatt hh hsha

/-- C2 witness: a header carrying digest `[1]` against the constant hash
`[0]` is rejected at the commitment check. -/
theorem policy_digest_mismatch_rejected_witness :
    LedgerService.authorize_access sampleEnvMismatch sampleState sampleAuthReq =
      (.error ⟨.invalidArgument, "access policy does not match blob header"⟩,
        ⟨0, [(7, samplePkl)]⟩) :=
  (policy_digest_mismatch_rejected sampleEnvMismatch sampleState ⟨0, [(7, samplePkl)]⟩
    sampleAuthReq ⟨"t"⟩ ⟨[3], 7, [1], 0⟩ (by decide) (by decide) (by decide)
    (by decide)).2

/-- C6 counterexample: the claim's "every subsequent operation naming key k
returns NotFound" fails on the code, because a later `CreateKey` may mint the
same 32-bit id again.  Concretely: key 7 is created with expiration 100 s; a
second `CreateKey` carrying `now = 200 s ≥ 100 s` evicts it but re-mints id 7
from its RNG tape; the subsequent `DeleteKey(7)` then returns Ok, not
NotFound. -/
theorem evicted_key_id_can_be_reminted :
    ((runOps sampleEnv
        [.createKey [7] (0, [2]) ⟨some ⟨0, 0⟩, some ⟨100, 0⟩⟩,
         .createKey [7] (1, [3]) ⟨some ⟨200, 0⟩, some ⟨50, 0⟩⟩]
        LedgerService.init).map
      (fun s2 => (LedgerService.delete_key s2 ⟨7⟩).1)) = some (.ok ()) ∧
    ((runOps sampleEnv [.createKey [7] (0, [2]) ⟨some ⟨0, 0⟩, some ⟨100, 0⟩⟩]
        LedgerService.init).map
      (fun s1 => (lookupKey s1.per_key_ledgers 7).map PerKeyLedger.expiration)) =
      some (some (100 * nanosPerSec)) ∧
    LedgerService.parse_timestamp (some ⟨200, 0⟩) = .ok (200 * nanosPerSec) ∧
    100 * nanosPerSec ≤ 200 * nanosPerSec := by
  decide

/-- C6 (amended): a successful clock advance with timestamp `now` sets
`current_time = now` and keeps exactly the prior entries with
`expiration > now`; hence after a call carrying `now ≥ expiration(k)` the key
`k` is gone, and — as long as no subsequent `CreateKey` mints id `k` again —
it stays gone, and every operation naming `k` (`DeleteKey`, `RevokeAccess`,
and `AuthorizeAccess` once its preceding checks pass) returns `NotFound`
("public key not found"). -/
theorem clock_advance_evicts_exactly :
    (∀ now s s1 n, LedgerService.update_current_time now s = .ok s1 →
      LedgerService.parse_timestamp now = .ok n →
      s1.current_time = n ∧
      s1.per_key_ledgers = s.per_key_ledgers.filter (fun e => n < e.2.expiration)) ∧
    (∀ now s s1 n k pkl, KeysNodup s →
      LedgerService.update_current_time now s = .ok s1 →
      LedgerService.parse_timestamp now = .ok n →
      lookupKey s.per_key_ledgers k = some pkl → pkl.expiration ≤ n →
      lookupKey s1.per_key_ledgers k = none) ∧
    (∀ s k, lookupKey s.per_key_ledgers k = none →
      LedgerService.delete_key s ⟨k⟩ = (.error ⟨.notFound, "public key not found"⟩, s) ∧
      (∀ blob, LedgerService.revoke_access s ⟨k, blob⟩ =
        (.error ⟨.notFound, "public key not found"⟩, s))) ∧
    (∀ env s s1 req app header policy,
      LedgerService.update_current_time req.now s = .ok s1 →
      env.verifyAttestation req.recipient_public_key req.recipient_attestation
        req.recipient_tag = .ok app →
      env.decodeBlobHeader req.blob_header = .ok header →
      env.sha256 req.access_policy = header.access_policy_sha256 →
      env.decodeAccessPolicy req.access_policy = .ok policy →
      lookupKey s1.per_key_ledgers header.public_key_id = none →
      LedgerService.authorize_access env s req =
        (.error ⟨.notFound, "public key not found"⟩, s1)) ∧
    (∀ env ops s s' k, runOps env ops s = some s' →
      (∀ op ∈ ops, avoidsKey k op) →
      lookupKey s.per_key_ledgers k = none →
      lookupKey s'.per_key_ledgers k = none) := by
  refine ⟨?_, ?_, ?_, authorize_access_lookup_none, runOps_preserves_absent⟩
  · intro now s s1 n hu hp
    obtain ⟨n', hp', _, rfl⟩ := update_current_time_ok_dest now s s1 hu
    rw [hp'] at hp
    have : n' = n := Except.ok.inj hp
    subst this
    exact ⟨rfl, rfl⟩
  · intro now s s1 n k pkl hnd hu hp hl hexp
    obtain ⟨n', hp', _, rfl⟩ := update_current_time_ok_dest now s s1 hu
    rw [hp'] at hp
    have : n' = n := Except.ok.inj hp
    subst this
    exact lookupKey_filter_eq_none _ _ _ hnd pkl hl (decide_eq_false (not_lt.mpr hexp))
  · intro s k h
    refine ⟨?_, fun blob => ?_⟩
    · simp only [LedgerService.delete_key, h]
    · simp only [LedgerService.revoke_access, h]

/-- C6 amended witness: advancing the clock of the sample state to `2000 s`
evicts key 7 (expiration `1000 s`), and delete/revoke on the evicted key
return NotFound. -/
theorem clock_advance_evicts_exactly_witness :
    (KeysNodup sampleState ∧
     LedgerService.update_current_time (some ⟨2000, 0⟩) sampleState =
       .ok ⟨2000 * nanosPerSec, []⟩ ∧
     LedgerService.parse_timestamp (some ⟨2000, 0⟩) = .ok (2000 * nanosPerSec) ∧
     lookupKey sampleState.per_key_ledgers 7 = some samplePkl ∧
     samplePkl.expiration ≤ 2000 * nanosPerSec) ∧
    lookupKey (⟨2000 * nanosPerSec, []⟩ : LedgerService).per_key_ledgers 7 = none ∧
    LedgerService.delete_key ⟨2000 * nanosPerSec, []⟩ ⟨7⟩ =
      (.error ⟨.notFound, "public key not found"⟩, ⟨2000 * nanosPerSec, []⟩) := by
  refine ⟨⟨?_, by decide, by decide, by decide, by decide⟩, ?_, ?_⟩
  · unfold KeysNodup
    decide
  · exact clock_advance_evicts_exactly.2.1 (some ⟨2000, 0⟩) sampleState
      ⟨2000 * nanosPerSec, []⟩ (2000 * nanosPerSec) 7 samplePkl
      (by unfold KeysNodup; decide) (by decide) (by decide) (by decide) (by decide)
  · exact (clock_advance_evicts_exactly.2.2.1 ⟨2000 * nanosPerSec, []⟩ 7 (by decide)).1

end Ledger

namespace Ledger

/-- C8 witness: the sample request succeeds and its response is the echoing
re-wrap's output together with the per-key public key. -/
theorem authorize_access_success_dest_witness :
    LedgerService.authorize_access sampleEnv sampleState sampleAuthReq =
      (.ok ⟨[4], [5], [9]⟩,
        ⟨0, [(7, ⟨1, [9], 1000 * nanosPerSec, ⟨[(([3], [0], 0), 1)], []⟩⟩)]⟩) ∧
    (∃ s1 header pkl ek esk,
      LedgerService.update_current_time sampleAuthReq.now sampleState = .ok s1 ∧
      sampleEnv.decodeBlobHeader sampleAuthReq.blob_header = .ok header ∧
      lookupKey s1.per_key_ledgers header.public_key_id = some pkl ∧
      sampleEnv.rewrap sampleAuthReq.encrypted_symmetric_key sampleAuthReq.encapsulated_key
        pkl.private_key sampleAuthReq.blob_header sampleAuthReq.recipient_public_key
        (pkl.public_key ++ sampleAuthReq.recipient_nonce) = .ok (ek, esk) ∧
      (⟨[4], [5], [9]⟩ : AuthorizeAccessResponse) = ⟨ek, esk, pkl.public_key⟩) :=
  ⟨by decide,
   authorize_access_success_dest sampleEnv sampleState sampleAuthReq ⟨[4], [5], [9]⟩
     ⟨0, [(7, ⟨1, [9], 1000 * nanosPerSec, ⟨[(([3], [0], 0), 1)], []⟩⟩)]⟩ (by decide)⟩

/-- C7: after a successful `RevokeAccess(k, blob)` the blob is recorded as
revoked under key `k`, and every `AuthorizeAccess` that reaches the budget
check for `(k, blob)` fails `ResourceExhausted`, for every access policy; and
`RevokeAccess` is idempotent: repeating it succeeds and leaves the state of
the first invocation unchanged. -/
theorem revoke_access_exhausts :
    (∀ s k blob pkl, lookupKey s.per_key_ledgers k = some pkl →
      LedgerService.revoke_access s ⟨k, blob⟩ =
        (.ok (), { s with per_key_ledgers :=
            (setKey s.per_key_ledgers k
              { pkl with budget_tracker := pkl.budget_tracker.consume_budget blob }) }) ∧
      blob ∈ (pkl.budget_tracker.consume_budget blob).revoked) ∧
    (∀ env s s1 req app header policy pkl,
      LedgerService.update_current_time req.now s = .ok s1 →
      env.verifyAttestation req.recipient_public_key req.recipient_attestation
        req.recipient_tag = .ok app →
      env.decodeBlobHeader req.blob_header = .ok header →
      env.sha256 req.access_policy = header.access_policy_sha256 →
      env.decodeAccessPolicy req.access_policy = .ok policy →
      lookupKey s1.per_key_ledgers header.public_key_id = some pkl →
      header.blob_id ∈ pkl.budget_tracker.revoked →
      LedgerService.authorize_access env s req = (.error ⟨.resourceExhausted, ""⟩, s1)) ∧
    (∀ s k blob s2, KeysNodup s →
      LedgerService.revoke_access s ⟨k, blob⟩ = (.ok (), s2) →
      LedgerService.revoke_access s2 ⟨k, blob⟩ = (.ok (), s2)) := by
  refine ⟨?_, ?_, ?_⟩
  · intro s k blob pkl hl
    exact ⟨by simp only [LedgerService.revoke_access, hl], consume_budget_mem _ _⟩
  · intro env s s1 req app header policy pkl hu hatt hh hsha hp hl hrev
    exact authorize_access_find_error env s s1 req app header policy pkl _ hu hatt hh hsha hp hl
      (find_matching_transform_revoked _ _ _ _ _ _ hrev)
  · intro s k blob s2 hnd h
    cases hl : lookupKey s.per_key_ledgers k with
    | none =>
      rw [show LedgerService.revoke_access s ⟨k, blob⟩
          = (.error ⟨.notFound, "public key not found"⟩, s) from by
            simp only [LedgerService.revoke_access, hl]] at h
      simp at h
    | some pkl =>
      have h2 : s2 = { s with per_key_ledgers :=
          (setKey s.per_key_ledgers k
            { pkl with budget_tracker := pkl.budget_tracker.consume_budget blob }) } := by
        have h' := h
        simp only [LedgerService.revoke_access, hl, Prod.mk.injEq] at h'
        exact h'.2.symm
      subst h2
      have hl2 : lookupKey
          (setKey s.per_key_ledgers k
            { pkl with budget_tracker := pkl.budget_tracker.consume_budget blob }) k
          = some { pkl with budget_tracker := pkl.budget_tracker.consume_budget blob } := by
        rw [lookupKey_setKey_self, hl]
        rfl
      simp only [LedgerService.revoke_access, hl2]
      rw [consume_budget_of_mem (pkl.budget_tracker.consume_budget blob) blob
        (consume_budget_mem pkl.budget_tracker blob)]
      rw [setKey_self_eq _ k _ (by
        unfold KeysNodup at hnd
        rw [setKey_map_fst]
        exact hnd) hl2]

/-- C7 witness: revoking blob `[3]` under key 7 records the revocation, a
subsequent authorize for that blob fails `ResourceExhausted`, and revoking
again is a no-op that still succeeds. -/
theorem revoke_access_exhausts_witness :
    LedgerService.revoke_access sampleState ⟨7, [3]⟩ =
      (.ok (), ⟨0, [(7, ⟨1, [9], 1000 * nanosPerSec, ⟨[], [[3]]⟩⟩)]⟩) ∧
    LedgerService.authorize_access sampleEnv
        ⟨0, [(7, ⟨1, [9], 1000 * nanosPerSec, ⟨[], [[3]]⟩⟩)]⟩ sampleAuthReq =
      (.error ⟨.resourceExhausted, ""⟩,
        ⟨0, [(7, ⟨1, [9], 1000 * nanosPerSec, ⟨[], [[3]]⟩⟩)]⟩) ∧
    LedgerService.revoke_access
        ⟨0, [(7, ⟨1, [9], 1000 * nanosPerSec, ⟨[], [[3]]⟩⟩)]⟩ ⟨7, [3]⟩ =
      (.ok (), ⟨0, [(7, ⟨1, [9], 1000 * nanosPerSec, ⟨[], [[3]]⟩⟩)]⟩) := by
  refine ⟨?_, ?_, ?_⟩
  · exact ((revoke_access_exhausts.1 sampleState 7 [3] samplePkl (by decide)).1).trans
      (by decide)
  · exact revoke_access_exhausts.2.1 sampleEnv
      ⟨0, [(7, ⟨1, [9], 1000 * nanosPerSec, ⟨[], [[3]]⟩⟩)]⟩
      ⟨0, [(7, ⟨1, [9], 1000 * nanosPerSec, ⟨[], [[3]]⟩⟩)]⟩
      sampleAuthReq ⟨"t"⟩ ⟨[3], 7, [0], 0⟩ ⟨[⟨none, none⟩]⟩
      ⟨1, [9], 1000 * nanosPerSec, ⟨[], [[3]]⟩⟩
      (by decide) (by decide) (by decide) (by decide) (by decide) (by decide) (by decide)
  · exact revoke_access_exhausts.2.2 sampleState 7 [3]
      ⟨0, [(7, ⟨1, [9], 1000 * nanosPerSec, ⟨[], [[3]]⟩⟩)]⟩
      (by unfold KeysNodup; decide) (by decide)

end Ledger
